import Mathlib

/-!
Shallow embedding of the `bologna` repository (tomlin7/bologna).

Two source files are modelled:
* `src/bologna/bologna-cmake.cpp` — a Kaleidoscope-style lexer
  (`gettok`) and recursive-descent parser with precedence climbing
  (`ParseExpression`, `ParseBinOpRHS`, `ParsePrototype`, ...), in
  namespace `Bologna`.
* `src/Bologna/Bologna/Bologna.cpp` — a small position-indexed string
  lexer (`Lexer::NextToken`), in namespace `Bologna2`.

The C++ global mutable state (`LastChar`, `CurTok`, `IdentifierStr`,
`NumVal`, the stderr stream) is made explicit: the character stream is a
`List Char` plus the one-character pushback `lastChar : Option Char`
(`none` models `EOF`), the parser state carries the current token, and
`LogError`'s `fprintf(stderr, ...)` is modelled as appending to a `log`
list.  Token payloads (`IdentifierStr`, `NumVal`) travel inside the
token instead of in globals.
-/

namespace Bologna

/-- C `isspace` in the default locale: space, \t, \n, \v, \f, \r. -/
def isspace (c : Char) : Bool :=
  c = ' ' || c = '\t' || c = '\n' || c = '\x0b' || c = '\x0c' || c = '\r'

/-- C `isalpha` in the default locale (ASCII letters). -/
def isalpha (c : Char) : Bool :=
  ('a' ≤ c && c ≤ 'z') || ('A' ≤ c && c ≤ 'Z')

/-- C `isdigit`. -/
def isdigit (c : Char) : Bool :=
  '0' ≤ c && c ≤ '9'

/-- C `isalnum`. -/
def isalnum (c : Char) : Bool :=
  isalpha c || isdigit c

/-- `getchar()`: reading from the remaining input; `none` models `EOF`. -/
def getchar : List Char → Option Char × List Char
  | [] => (none, [])
  | c :: rest => (some c, rest)

/-- The token type of `bologna-cmake.cpp` (`enum Token` plus the
"return the character as its ascii value" case).  `tok_def` and
`tok_ext` model the `def` / `extern` keyword tokens; `ident` carries
`IdentifierStr` and `number` carries `NumVal`. -/
inductive Tok where
  | eof : Tok
  | tok_def : Tok
  | tok_ext : Tok
  | ident : String → Tok
  | number : ℚ → Tok
  | ch : Char → Tok
deriving DecidableEq, Repr

/-- Decimal value of a digit string, as `strtod` accumulates it. -/
def digitsToNat (l : List Char) : ℕ :=
  l.foldl (fun a c => a * 10 + (c.toNat - 48)) 0

/-- `strtod` restricted to the strings the lexer can hand it (matching
`[0-9.]+`): a run of digits, optionally followed by `.` and a run of
digits; anything after that (e.g. the second dot of `1.2.3`) is ignored,
and no digits at all gives `0.0`.  The value is modelled exactly, in
`ℚ`; the fractional part is split off so that an integer literal is a
bare `Nat` cast. -/
def strtod (s : String) : ℚ :=
  let l := s.toList
  let ip := l.takeWhile isdigit
  let rest := l.drop ip.length
  let fp : List Char :=
    match rest with
    | '.' :: r => r.takeWhile isdigit
    | _ => []
  if fp.isEmpty then (digitsToNat ip : ℚ)
  else (digitsToNat ip : ℚ) + (digitsToNat fp : ℚ) / ((10 : ℚ) ^ fp.length)

/-- The identifier loop of `gettok` (lines 46-49):
`while (isalnum((LastChar = getchar()))) IdentifierStr += LastChar;`.
Returns the accumulated `IdentifierStr`, the final `LastChar` and the
remaining input. -/
def readIdent (acc : String) : List Char → String × Option Char × List Char
  | [] => (acc, none, [])
  | c :: rest =>
    if isalnum c then readIdent (acc.push c) rest else (acc, some c, rest)

/-- The number loop of `gettok` (lines 58-64):
`do { NumStr += LastChar; LastChar = getchar(); } while (isdigit(LastChar) || LastChar == '.');`.
`c` is the current `LastChar` (already known to be a digit or `.`). -/
def readNum (acc : String) (c : Char) : List Char → String × Option Char × List Char
  | [] => (acc.push c, none, [])
  | d :: rest =>
    if isdigit d || d = '.' then readNum (acc.push c) d rest
    else (acc.push c, some d, rest)

/-- The whitespace-skip loop of `gettok` (lines 42-44), the `#`-comment
loop (lines 69-77) and the tail call `return gettok();` after a
comment, fused into one structurally recursive scanner so that `gettok`
itself needs no recursion.  The `Bool` is `true` while inside a comment
body (the C++ control point inside the `do ... while`).  The result is
the final `LastChar` (`none` = `EOF`) and remaining input at the moment
the C++ code falls through to the `isalpha` test. -/
def skipToToken : Bool → Option Char → List Char → Option Char × List Char
  | _, none, inp => (none, inp)
  | true, some c, inp =>
    if c = '\n' ∨ c = '\r' then
      -- comment ended at a newline; `return gettok()` re-enters the
      -- whitespace skip, which consumes the (whitespace) newline
      match inp with
      | [] => (none, [])
      | d :: rest => skipToToken false (some d) rest
    else
      -- still inside the comment: LastChar = getchar(), loop
      match inp with
      | [] => (none, [])
      | d :: rest => skipToToken true (some d) rest
  | false, some c, inp =>
    if isspace c then
      match inp with
      | [] => (none, [])
      | d :: rest => skipToToken false (some d) rest
    else if c = '#' then
      -- comment: first `LastChar = getchar()` of the do-while
      match inp with
      | [] => (none, [])
      | d :: rest => skipToToken true (some d) rest
    else (some c, inp)

/-- `gettok` (lines 39-87): return the next token from the input.
State threaded explicitly: the pushback `LastChar` and the remaining
character stream.  The whitespace/comment handling (including the
recursive `return gettok()` after a comment) lives in `skipToToken`;
`#` is neither alphabetic, a digit, nor `.`, so hoisting the comment
test above the identifier/number tests does not change behaviour. -/
def gettok (lastChar : Option Char) (input : List Char) :
    Tok × Option Char × List Char :=
  match skipToToken false lastChar input with
  | (none, inp₁) => (Tok.eof, none, inp₁)  -- don't eat the EOF
  | (some c, inp₁) =>
    if isalpha c then
      -- identifier: [a-zA-Z][a-zA-Z0-9]*
      match readIdent (String.singleton c) inp₁ with
      | (s, lc', inp') =>
        if s = "def" then (Tok.tok_def, lc', inp')
        else if s = "extern" then (Tok.tok_ext, lc', inp')
        else (Tok.ident s, lc', inp')
    else if isdigit c || c = '.' then
      -- Number: [0-9.]+
      match readNum "" c inp₁ with
      | (s, lc', inp') => (Tok.number (strtod s), lc', inp')
    else
      -- return the character as its ascii value
      match getchar inp₁ with
      | (lc', inp') => (Tok.ch c, lc', inp')

example : gettok (some ' ') "  def foo".toList
    = (Tok.tok_def, some ' ', "foo".toList) := by decide
example : (gettok (some ' ') "15 x".toList).1 = Tok.number 15 := by decide
example : (gettok (some ' ') "# hi".toList).1 = Tok.eof := by decide

/-! ### Abstract syntax tree (lines 93-164)

`ExprAST` and its subclasses become a closed inductive; `PrototypeAST`
and `FunctionAST` become structures.  The `unique_ptr` ownership is the
ordinary tree structure of an inductive value. -/

/-- `ExprAST` with its four subclasses `NumberExprAST`,
`VariableExprAST`, `BinaryExprAST` (char `Op`), `CallExprAST`. -/
inductive ExprAST where
  | numberExpr : ℚ → ExprAST
  | variableExpr : String → ExprAST
  | binaryExpr : Char → ExprAST → ExprAST → ExprAST
  | callExpr : String → List ExprAST → ExprAST

mutual

/-- Boolean equality on `ExprAST` (the nested `List` blocks the derive
handler, so it is written out). -/
def ExprAST.beq : ExprAST → ExprAST → Bool
  | ExprAST.numberExpr a, ExprAST.numberExpr a' => a == a'
  | ExprAST.variableExpr n, ExprAST.variableExpr n' => n == n'
  | ExprAST.binaryExpr o l r, ExprAST.binaryExpr o' l' r' =>
    o == o' && ExprAST.beq l l' && ExprAST.beq r r'
  | ExprAST.callExpr f as, ExprAST.callExpr f' as' =>
    f == f' && ExprAST.beqs as as'
  | _, _ => false

/-- Boolean equality on lists of `ExprAST`. -/
def ExprAST.beqs : List ExprAST → List ExprAST → Bool
  | [], [] => true
  | a :: as, a' :: as' => ExprAST.beq a a' && ExprAST.beqs as as'
  | _, _ => false

end

mutual

theorem ExprAST.beq_iff : ∀ a b : ExprAST, ExprAST.beq a b = true ↔ a = b
  | ExprAST.numberExpr _, ExprAST.numberExpr _ => by simp [ExprAST.beq]
  | ExprAST.numberExpr _, ExprAST.variableExpr _ => by simp [ExprAST.beq]
  | ExprAST.numberExpr _, ExprAST.binaryExpr _ _ _ => by simp [ExprAST.beq]
  | ExprAST.numberExpr _, ExprAST.callExpr _ _ => by simp [ExprAST.beq]
  | ExprAST.variableExpr _, ExprAST.numberExpr _ => by simp [ExprAST.beq]
  | ExprAST.variableExpr _, ExprAST.variableExpr _ => by simp [ExprAST.beq]
  | ExprAST.variableExpr _, ExprAST.binaryExpr _ _ _ => by simp [ExprAST.beq]
  | ExprAST.variableExpr _, ExprAST.callExpr _ _ => by simp [ExprAST.beq]
  | ExprAST.binaryExpr _ _ _, ExprAST.numberExpr _ => by simp [ExprAST.beq]
  | ExprAST.binaryExpr _ _ _, ExprAST.variableExpr _ => by simp [ExprAST.beq]
  | ExprAST.binaryExpr o l r, ExprAST.binaryExpr o' l' r' => by
    simp [ExprAST.beq, Bool.and_eq_true, ExprAST.beq_iff l l',
      ExprAST.beq_iff r r', and_assoc]
  | ExprAST.binaryExpr _ _ _, ExprAST.callExpr _ _ => by simp [ExprAST.beq]
  | ExprAST.callExpr _ _, ExprAST.numberExpr _ => by simp [ExprAST.beq]
  | ExprAST.callExpr _ _, ExprAST.variableExpr _ => by simp [ExprAST.beq]
  | ExprAST.callExpr _ _, ExprAST.binaryExpr _ _ _ => by simp [ExprAST.beq]
  | ExprAST.callExpr f as, ExprAST.callExpr f' as' => by
    simp [ExprAST.beq, Bool.and_eq_true, ExprAST.beqs_iff as as']

theorem ExprAST.beqs_iff : ∀ as bs : List ExprAST, ExprAST.beqs as bs = true ↔ as = bs
  | [], [] => by simp [ExprAST.beqs]
  | [], _ :: _ => by simp [ExprAST.beqs]
  | _ :: _, [] => by simp [ExprAST.beqs]
  | a :: as, a' :: as' => by
    simp [ExprAST.beqs, Bool.and_eq_true, ExprAST.beq_iff a a',
      ExprAST.beqs_iff as as']

end

instance : DecidableEq ExprAST := fun a b => decidable_of_iff _ (ExprAST.beq_iff a b)

/-- `PrototypeAST`: a function name and its argument names. -/
structure PrototypeAST where
  name : String
  args : List String
deriving DecidableEq, Repr

/-- `FunctionAST`: a prototype together with the body expression. -/
structure FunctionAST where
  proto : PrototypeAST
  body : ExprAST
deriving DecidableEq

/-! ### Parser state -/

/-- The parser's mutable context: the one-token lookahead `CurTok`
(line 173), the lexer state (`LastChar` and the remaining character
stream), and the messages written to stderr by `LogError` (line 194),
in order. -/
structure PState where
  curTok : Tok
  lastChar : Option Char
  input : List Char
  log : List String
deriving DecidableEq, Repr

/-- `getNextToken` (line 174): read another token from the lexer and
update `CurTok`. -/
def getNextToken (s : PState) : PState :=
  match gettok s.lastChar s.input with
  | (t, lc, inp) => { s with curTok := t, lastChar := lc, input := inp }

/-- `BinopPrecedence` (lines 178, 439-442) after `main`'s seed
installation; `std::map::operator[]` yields 0 for an absent key. -/
def BinopPrecedence (c : Char) : Int :=
  if c = '<' then 10
  else if c = '+' then 20
  else if c = '-' then 20
  else if c = '*' then 40
  else 0

/-- `GetTokPrecedence` (lines 181-190): precedence of the pending
binary-operator token, `-1` when `CurTok` is not an ascii character
(`isascii` fails on the negative `Token` enum values and on bytes
≥ 128) or is not a declared binop. -/
def GetTokPrecedence (t : Tok) : Int :=
  match t with
  | Tok.ch c =>
    if 128 ≤ c.toNat then -1
    else if BinopPrecedence c ≤ 0 then -1
    else BinopPrecedence c
  | _ => -1

/-- `LogError` (lines 193-196): print the message to stderr and return
`nullptr`. -/
def LogError (str : String) (s : PState) : Option ExprAST × PState :=
  (none, { s with log := s.log ++ [str] })

/-- `LogErrorP` (lines 197-200): `LogError(Str); return nullptr;`. -/
def LogErrorP (str : String) (s : PState) : Option PrototypeAST × PState :=
  (none, (LogError str s).2)

/-! ### Expression parser (lines 202-322)

The mutual recursion `ParseExpression` / `ParsePrimary` /
`ParseBinOpRHS` / ... consumes at least one token per call chain, which
the C++ relies on for termination; the embedding makes that explicit
with a fuel parameter, decremented at the head of every production (a
run with enough fuel never hits the `0` case).  `ParseNumberExpr` and
the identifier productions take the token payload (`NumVal`,
`IdentifierStr`) as an argument instead of reading a global. -/

/-- `ParseNumberExpr` (lines 205-209): wrap `NumVal`, consume the
number token. -/
def ParseNumberExpr (v : ℚ) (s : PState) : Option ExprAST × PState :=
  (some (ExprAST.numberExpr v), getNextToken s)

mutual

/-- `ParseExpression` (lines 316-322): `primary binoprhs`. -/
def ParseExpression : ℕ → PState → Option ExprAST × PState
  | 0, s => (none, s)
  | fuel + 1, s =>
    match ParsePrimary fuel s with
    | (none, s₁) => (none, s₁)
    | (some lhs, s₁) => ParseBinOpRHS fuel 0 lhs s₁

/-- `ParsePrimary` (lines 264-275): dispatch on `CurTok`. -/
def ParsePrimary : ℕ → PState → Option ExprAST × PState
  | 0, s => (none, s)
  | fuel + 1, s =>
    match s.curTok with
    | Tok.ident name => ParseIdentifierExpr fuel name s
    | Tok.number v => ParseNumberExpr v s
    | Tok.ch '(' => ParseParenExpr fuel s
    | _ => LogError "unknown token when expecting an expression" s

/-- `ParseParenExpr` (lines 212-222): eat `(`, parse the inner
expression, require and eat `)`, and return the inner expression
itself. -/
def ParseParenExpr : ℕ → PState → Option ExprAST × PState
  | 0, s => (none, s)
  | fuel + 1, s =>
    let s₁ := getNextToken s  -- eat (.
    match ParseExpression fuel s₁ with
    | (none, s₂) => (none, s₂)
    | (some v, s₂) =>
      if s₂.curTok = Tok.ch ')' then (some v, getNextToken s₂)  -- eat ).
      else LogError "expected ')'" s₂

/-- `ParseIdentifierExpr` (lines 227-258): a variable reference, or a
call `id '(' expression* ')'` with comma-separated arguments. -/
def ParseIdentifierExpr : ℕ → String → PState → Option ExprAST × PState
  | 0, _, s => (none, s)
  | fuel + 1, idName, s =>
    let s₁ := getNextToken s  -- eat identifier.
    if s₁.curTok ≠ Tok.ch '(' then  -- Simple variable ref.
      (some (ExprAST.variableExpr idName), s₁)
    else
      let s₂ := getNextToken s₁  -- eat (
      if s₂.curTok = Tok.ch ')' then
        (some (ExprAST.callExpr idName []), getNextToken s₂)  -- eat the ')'.
      else
        match ParseCallArgs fuel [] s₂ with
        | (none, s₃) => (none, s₃)
        | (some args, s₃) =>
          (some (ExprAST.callExpr idName args), getNextToken s₃)  -- eat the ')'.

/-- The argument loop of `ParseIdentifierExpr` (lines 239-251): parse
an expression, stop at `)`, require `,` between arguments. -/
def ParseCallArgs : ℕ → List ExprAST → PState → Option (List ExprAST) × PState
  | 0, _, s => (none, s)
  | fuel + 1, args, s =>
    match ParseExpression fuel s with
    | (none, s₁) => (none, s₁)
    | (some arg, s₁) =>
      let args := args ++ [arg]
      if s₁.curTok = Tok.ch ')' then (some args, s₁)
      else if s₁.curTok ≠ Tok.ch ',' then
        match LogError "Expected ')' or ',' in argument list" s₁ with
        | (_, s₂) => (none, s₂)
      else ParseCallArgs fuel args (getNextToken s₁)

/-- `ParseBinOpRHS` (lines 279-311): the precedence-climbing loop.  A
pending operator whose precedence is below `ExprPrec` ends the loop;
otherwise it is consumed, a primary is parsed as provisional RHS, and
the RHS absorbs following operators only while their precedence is
strictly greater than the current operator's.  The `Tok.ch` match
extracts `BinOp = CurTok`; a non-character token always has precedence
`-1`, so with the nonnegative `ExprPrec` the parser actually passes the
fallback arm is unreachable (kept total by returning `LHS`). -/
def ParseBinOpRHS : ℕ → Int → ExprAST → PState → Option ExprAST × PState
  | 0, _, _, s => (none, s)
  | fuel + 1, exprPrec, lhs, s =>
    let tokPrec := GetTokPrecedence s.curTok
    if tokPrec < exprPrec then (some lhs, s)
    else
      match s.curTok with
      | Tok.ch binOp =>
        let s₁ := getNextToken s  -- eat binop
        match ParsePrimary fuel s₁ with
        | (none, s₂) => (none, s₂)
        | (some rhs, s₂) =>
          let nextPrec := GetTokPrecedence s₂.curTok
          if tokPrec < nextPrec then
            match ParseBinOpRHS fuel (tokPrec + 1) rhs s₂ with
            | (none, s₃) => (none, s₃)
            | (some rhs', s₃) =>
              ParseBinOpRHS fuel exprPrec (ExprAST.binaryExpr binOp lhs rhs') s₃
          else
            ParseBinOpRHS fuel exprPrec (ExprAST.binaryExpr binOp lhs rhs) s₂
      | _ => (some lhs, s)

end


/-! ### Prototypes, definitions, externs, driver (lines 326-430) -/

/-- The parameter-name loop of `ParsePrototype` (lines 337-338):
`while (getNextToken() == tok_identifier) ArgNames.push_back(IdentifierStr);`.
Each iteration consumes at least one input character (the identifier's
first letter), which the fuel makes explicit. -/
def ProtoArgs : ℕ → List String → PState → List String × PState
  | 0, args, s => (args, s)
  | fuel + 1, args, s =>
    let s₁ := getNextToken s
    match s₁.curTok with
    | Tok.ident n => ProtoArgs fuel (args ++ [n]) s₁
    | _ => (args, s₁)

/-- `ParsePrototype` (lines 326-346): `id '(' id* ')'` — parameter
names separated by nothing but whitespace. -/
def ParsePrototype (fuel : ℕ) (s : PState) : Option PrototypeAST × PState :=
  match s.curTok with
  | Tok.ident fnName =>
    let s₁ := getNextToken s
    if s₁.curTok ≠ Tok.ch '(' then LogErrorP "Expected '(' in prototype" s₁
    else
      match ProtoArgs fuel [] s₁ with
      | (argNames, s₂) =>
        if s₂.curTok ≠ Tok.ch ')' then LogErrorP "Expected ')' in prototype" s₂
        else (some ⟨fnName, argNames⟩, getNextToken s₂)  -- success; eat ')'.
  | _ => LogErrorP "Expected function name in prototype" s

/-- `ParseDefinition` (lines 349-358): `'def' prototype expression`. -/
def ParseDefinition (fuel : ℕ) (s : PState) : Option FunctionAST × PState :=
  let s₁ := getNextToken s  -- eat def.
  match ParsePrototype fuel s₁ with
  | (none, s₂) => (none, s₂)
  | (some proto, s₂) =>
    match ParseExpression fuel s₂ with
    | (none, s₃) => (none, s₃)
    | (some e, s₃) => (some ⟨proto, e⟩, s₃)

/-- `ParseTopLevelExpr` (lines 361-369): wrap a bare expression in an
anonymous zero-parameter prototype. -/
def ParseTopLevelExpr (fuel : ℕ) (s : PState) : Option FunctionAST × PState :=
  match ParseExpression fuel s with
  | (none, s₁) => (none, s₁)
  | (some e, s₁) => (some ⟨⟨"__anon_expr", []⟩, e⟩, s₁)

/-- `ParseExtern` (lines 372-375): eat the keyword, parse a prototype
(no body). -/
def ParseExtern (fuel : ℕ) (s : PState) : Option PrototypeAST × PState :=
  ParsePrototype fuel (getNextToken s)  -- eat extern.

/-- `HandleDefinition` (lines 381-388): on failure, skip one token for
error recovery.  The parse result is returned alongside the final
state so the outcome is observable. -/
def HandleDefinition (fuel : ℕ) (s : PState) : Option FunctionAST × PState :=
  match ParseDefinition fuel s with
  | (some fn, s₁) => (some fn, s₁)
  | (none, s₁) => (none, getNextToken s₁)  -- Skip token for error recovery.

/-- `HandleExtern` (lines 390-397). -/
def HandleExtern (fuel : ℕ) (s : PState) : Option PrototypeAST × PState :=
  match ParseExtern fuel s with
  | (some p, s₁) => (some p, s₁)
  | (none, s₁) => (none, getNextToken s₁)  -- Skip token for error recovery.

/-- `HandleTopLevelExpression` (lines 399-407). -/
def HandleTopLevelExpression (fuel : ℕ) (s : PState) : Option FunctionAST × PState :=
  match ParseTopLevelExpr fuel s with
  | (some fn, s₁) => (some fn, s₁)
  | (none, s₁) => (none, getNextToken s₁)  -- Skip token for error recovery.

/-- The parser state at the start of `main` (lines 436-447): fresh
stderr, `LastChar = ' '`, the given text as the character stream, and
the first token primed by `getNextToken()`. -/
def initState (text : String) : PState :=
  getNextToken { curTok := Tok.eof, lastChar := some ' ', input := text.toList, log := [] }

/-- Parse one expression from a source string, as the REPL does for a
top-level expression's body. -/
def runExpression (fuel : ℕ) (text : String) : Option ExprAST × PState :=
  ParseExpression fuel (initState text)

example : (runExpression 32 "1 + 2 * 3").1
    = some (ExprAST.binaryExpr '+' (ExprAST.numberExpr 1)
        (ExprAST.binaryExpr '*' (ExprAST.numberExpr 2) (ExprAST.numberExpr 3))) := by
  decide

example : (runExpression 32 "foo(1, 2)").1
    = some (ExprAST.callExpr "foo" [ExprAST.numberExpr 1, ExprAST.numberExpr 2]) := by
  decide

example : (HandleExtern 32 (initState "extern sin(x)")).1 = some ⟨"sin", ["x"]⟩ := by
  decide

end Bologna

namespace Bologna2

/-!
Embedding of `src/Bologna/Bologna/Bologna.cpp`: a position-indexed
lexer over an in-memory string.
-/

/-- `enum SyntaxKind` (lines 8-11). -/
inductive SyntaxKind where
  | NumberToken | WhiteSpaceToken | PlusToken | MinusToken
  | StarToken | SlashToken | OpenParenthesesToken | CloseParenthesesToken
  | EOFToken | BadToken
deriving DecidableEq, Repr

/-- `class SyntaxToken` (lines 33-58): kind, start position, text and
integer value. -/
structure SyntaxToken where
  kind : SyntaxKind
  position : ℕ
  text : String
  value : ℤ
deriving DecidableEq, Repr

/-- `class Lexer` (lines 60-120): the subject text and the scan
cursor `_position`. -/
structure Lexer where
  text : List Char
  position : ℕ
deriving DecidableEq, Repr

/-- `Lexer::Current` (lines 64-69): the character at the cursor, `'\0'`
past the end. -/
def Lexer.Current (L : Lexer) : Char :=
  if L.text.length ≤ L.position then '\x00' else L.text.getD L.position '\x00'

/-- `stoi` on the digit strings the lexer extracts. -/
def stoi (l : List Char) : ℤ :=
  (l.foldl (fun a c => a * 10 + (c.toNat - 48)) 0 : ℕ)

/-- `Lexer::NextToken` (lines 79-119).  The digit and space `while`
loops are the maximal runs `takeWhile` extracts from the cursor
position. -/
def Lexer.NextToken (L : Lexer) : SyntaxToken × Lexer :=
  if L.text.length ≤ L.position then
    (⟨SyntaxKind.EOFToken, L.position, "\x00", 0⟩, L)
  else if Bologna.isdigit L.Current then
    let run := (L.text.drop L.position).takeWhile Bologna.isdigit
    (⟨SyntaxKind.NumberToken, L.position, ⟨run⟩, stoi run⟩,
      { L with position := L.position + run.length })
  else if L.Current = ' ' then
    let run := (L.text.drop L.position).takeWhile (· = ' ')
    (⟨SyntaxKind.WhiteSpaceToken, L.position, ⟨run⟩, 0⟩,
      { L with position := L.position + run.length })
  else if L.Current = '+' then
    (⟨SyntaxKind.PlusToken, L.position, "+", 0⟩, { L with position := L.position + 1 })
  else if L.Current = '-' then
    (⟨SyntaxKind.MinusToken, L.position, "-", 0⟩, { L with position := L.position + 1 })
  else if L.Current = '*' then
    (⟨SyntaxKind.StarToken, L.position, "*", 0⟩, { L with position := L.position + 1 })
  else if L.Current = '/' then
    (⟨SyntaxKind.SlashToken, L.position, "/", 0⟩, { L with position := L.position + 1 })
  else if L.Current = '(' then
    (⟨SyntaxKind.OpenParenthesesToken, L.position, "(", 0⟩,
      { L with position := L.position + 1 })
  else if L.Current = ')' then
    (⟨SyntaxKind.CloseParenthesesToken, L.position, ")", 0⟩,
      { L with position := L.position + 1 })
  else
    (⟨SyntaxKind.BadToken, L.position, ⟨[L.Current]⟩, 0⟩,
      { L with position := L.position + 1 })

example : (Lexer.NextToken ⟨"12+".toList, 0⟩).1
    = ⟨SyntaxKind.NumberToken, 0, "12", 12⟩ := by decide
example : (Lexer.NextToken ⟨"12+".toList, 2⟩).2.position = 3 := by decide

end Bologna2

namespace Bologna

/-! ## Whitespace/comment-only inputs

`wscOK b l` recognises the inputs consisting solely of whitespace and
`#`-comments (each comment running to end-of-line or end-of-input);
`b = true` inside a comment body. -/

/-- Character lists made of whitespace and `#`-comments only. -/
def wscOK : Bool → List Char → Bool
  | _, [] => true
  | false, c :: rest =>
    if isspace c then wscOK false rest
    else if c = '#' then wscOK true rest
    else false
  | true, c :: rest =>
    if c = '\n' ∨ c = '\r' then wscOK false rest else wscOK true rest

/-- The whole input is whitespace and comments. -/
def wsOnly (l : List Char) : Bool := wscOK false l

/-- Invariant tying a `skipToToken` state to the whitespace/comment
grammar: in scan mode the pending character is whitespace or starts a
comment; in comment mode the rest matches from the comment (or, at a
newline, scan) state. -/
def lexScanOK : Bool → Char → List Char → Bool
  | false, c, inp => (isspace c && wscOK false inp) || (c = '#' && wscOK true inp)
  | true, c, inp => if c = '\n' ∨ c = '\r' then wscOK false inp else wscOK true inp

theorem lexScanOK_of_wscOK_false (d : Char) (rest : List Char)
    (h : wscOK false (d :: rest) = true) : lexScanOK false d rest = true := by
  by_cases hs : isspace d
  · simp only [wscOK, if_pos hs] at h
    simp [lexScanOK, hs, h]
  · by_cases hh : d = '#'
    · simp only [wscOK, if_neg hs, if_pos hh] at h
      simp [lexScanOK, hh, h]
    · simp [wscOK, hs, hh] at h

theorem lexScanOK_true_eq (d : Char) (rest : List Char) :
    lexScanOK true d rest = wscOK true (d :: rest) := rfl

/-- On a whitespace/comment-only suffix the scanner runs out of input
without delivering a character. -/
theorem skipToToken_lexScanOK :
    ∀ (inp : List Char) (b : Bool) (c : Char),
      lexScanOK b c inp = true → skipToToken b (some c) inp = (none, []) := by
  intro inp
  induction inp with
  | nil =>
    intro b c h
    cases b with
    | false =>
      simp only [lexScanOK, wscOK, Bool.and_true, Bool.or_eq_true,
        Bool.and_eq_true, decide_eq_true_eq] at h
      rcases h with h | h
      · simp [skipToToken, h]
      · subst h; decide
    | true =>
      by_cases hnl : c = '\n' ∨ c = '\r' <;> simp [skipToToken, hnl]
  | cons d rest ih =>
    intro b c h
    cases b with
    | false =>
      simp only [lexScanOK, Bool.or_eq_true, Bool.and_eq_true,
        decide_eq_true_eq] at h
      rcases h with ⟨hs, hw⟩ | ⟨hh, hw⟩
      · simp only [skipToToken, if_pos hs]
        exact ih false d (lexScanOK_of_wscOK_false d rest hw)
      · subst hh
        have hsp : isspace '#' = false := by decide
        simp only [skipToToken, hsp, Bool.false_eq_true, if_false, if_pos rfl]
        exact ih true d (by rw [lexScanOK_true_eq]; exact hw)
    | true =>
      by_cases hnl : c = '\n' ∨ c = '\r'
      · simp only [lexScanOK, if_pos hnl] at h
        simp only [skipToToken, if_pos hnl]
        exact ih false d (lexScanOK_of_wscOK_false d rest h)
      · simp only [lexScanOK, if_neg hnl] at h
        simp only [skipToToken, if_neg hnl]
        exact ih true d (by rw [lexScanOK_true_eq]; exact h)

end Bologna

namespace Bologna

/-! ## Properties of the parser and lexer -/

/-- C1: Parsing `"1 + 2 * 3"` yields `+ 1 (* 2 3)` and parsing
`"1 * 2 + 3"` yields `+ (* 1 2) 3`: the precedence-climbing loop nests
the higher-precedence `*` (precedence 40) below the lower-precedence
`+` (precedence 20) regardless of their textual order. -/
theorem parse_precedence_nesting :
    GetTokPrecedence (Tok.ch '*') = 40 ∧
    GetTokPrecedence (Tok.ch '+') = 20 ∧
    (runExpression 32 "1 + 2 * 3").1
      = some (ExprAST.binaryExpr '+' (ExprAST.numberExpr 1)
          (ExprAST.binaryExpr '*' (ExprAST.numberExpr 2) (ExprAST.numberExpr 3))) ∧
    (runExpression 32 "1 * 2 + 3").1
      = some (ExprAST.binaryExpr '+'
          (ExprAST.binaryExpr '*' (ExprAST.numberExpr 1) (ExprAST.numberExpr 2))
          (ExprAST.numberExpr 3)) := by
  refine ⟨by decide, by decide, by decide, by decide⟩

/-- C2: Binary operators of equal precedence associate to the left:
`"1 - 2 - 3"` parses as `- (- 1 2) 3`.  The mechanism: after the
provisional right-hand side is parsed, the pending operator is absorbed
into it only when its precedence is strictly greater than the current
operator's; otherwise (in particular at equal precedence) the loop
continues with the combined node as the new left-hand side. -/
theorem parse_left_assoc :
    (runExpression 32 "1 - 2 - 3").1
      = some (ExprAST.binaryExpr '-'
          (ExprAST.binaryExpr '-' (ExprAST.numberExpr 1) (ExprAST.numberExpr 2))
          (ExprAST.numberExpr 3)) ∧
    (∀ (fuel : ℕ) (exprPrec : ℤ) (lhs rhs : ExprAST) (s s₂ : PState) (op : Char),
      s.curTok = Tok.ch op →
      exprPrec ≤ GetTokPrecedence (Tok.ch op) →
      ParsePrimary fuel (getNextToken s) = (some rhs, s₂) →
      GetTokPrecedence s₂.curTok ≤ GetTokPrecedence (Tok.ch op) →
      ParseBinOpRHS (fuel + 1) exprPrec lhs s
        = ParseBinOpRHS fuel exprPrec (ExprAST.binaryExpr op lhs rhs) s₂) := by
  constructor
  · decide
  · intro fuel exprPrec lhs rhs s s₂ op hcur hle hprim hnext
    have h1 : ¬ GetTokPrecedence (Tok.ch op) < exprPrec := by omega
    have h2 : ¬ GetTokPrecedence (Tok.ch op) < GetTokPrecedence s₂.curTok := by omega
    simp only [ParseBinOpRHS, hcur, hprim, if_neg h1, if_neg h2]

/-- Closed instance of `parse_left_assoc`: in `"1 - 2 - 3"`, after the
first `-` and its provisional right-hand side `2`, the pending `-` has
equal precedence, so the loop combines `(1 - 2)` to the left. -/
theorem parse_left_assoc_witness :
    ParseBinOpRHS 31 0 (ExprAST.numberExpr 1)
        ((ParsePrimary 31 (initState "1 - 2 - 3")).2)
      = ParseBinOpRHS 30 0
          (ExprAST.binaryExpr '-' (ExprAST.numberExpr 1) (ExprAST.numberExpr 2))
          ((ParsePrimary 30
            (getNextToken ((ParsePrimary 31 (initState "1 - 2 - 3")).2))).2) :=
  parse_left_assoc.2 30 0 (ExprAST.numberExpr 1) (ExprAST.numberExpr 2)
    ((ParsePrimary 31 (initState "1 - 2 - 3")).2)
    ((ParsePrimary 30
      (getNextToken ((ParsePrimary 31 (initState "1 - 2 - 3")).2))).2)
    '-' (by decide) (by decide) (by decide) (by decide)

/-- C3: Every character outside the seed precedence table
`{<, +, -, *}` — in particular `/` — has pending-operator precedence
`-1`, so it is never consumed as a binary operator: parsing `"a / b"`
returns only the left operand `a` (no `BinaryOp` node, no error) and
leaves `/` as the unconsumed lookahead. -/
theorem undeclared_operator_not_binop :
    (∀ c : Char, c ≠ '<' → c ≠ '+' → c ≠ '-' → c ≠ '*' →
      GetTokPrecedence (Tok.ch c) = -1) ∧
    (runExpression 32 "a / b").1 = some (ExprAST.variableExpr "a") ∧
    (runExpression 32 "a / b").2.curTok = Tok.ch '/' ∧
    (runExpression 32 "a / b").2.log = [] := by
  refine ⟨?_, by decide, by decide, by decide⟩
  intro c h1 h2 h3 h4
  by_cases hA : 128 ≤ c.toNat <;>
    simp [GetTokPrecedence, BinopPrecedence, hA, h1, h2, h3, h4]

/-- Closed instance of `undeclared_operator_not_binop` at `/`. -/
theorem undeclared_operator_not_binop_witness :
    GetTokPrecedence (Tok.ch '/') = -1 :=
  undeclared_operator_not_binop.1 '/' (by decide) (by decide) (by decide)
    (by decide)

/-- C4: An identifier not followed by `(` parses as a variable
reference with that name; `"foo(1, 2)"` parses as a call of `foo` with
arguments `[1, 2]` in order; `"foo()"` parses as a call with no
arguments. -/
theorem parse_identifier_and_calls :
    (∀ (fuel : ℕ) (idName : String) (s : PState),
      (getNextToken s).curTok ≠ Tok.ch '(' →
      ParseIdentifierExpr (fuel + 1) idName s
        = (some (ExprAST.variableExpr idName), getNextToken s)) ∧
    (runExpression 32 "foo(1, 2)").1
      = some (ExprAST.callExpr "foo" [ExprAST.numberExpr 1, ExprAST.numberExpr 2]) ∧
    (runExpression 32 "foo()").1 = some (ExprAST.callExpr "foo" []) := by
  refine ⟨?_, by decide, by decide⟩
  intro fuel idName s h
  simp only [ParseIdentifierExpr, if_pos h]

/-- Closed instance of `parse_identifier_and_calls`: in `"foo + 1"` the
token after `foo` is `+`, so `foo` parses as a variable reference. -/
theorem parse_identifier_and_calls_witness :
    ParseIdentifierExpr 31 "foo" (initState "foo + 1")
      = (some (ExprAST.variableExpr "foo"), getNextToken (initState "foo + 1")) :=
  parse_identifier_and_calls.1 30 "foo" (initState "foo + 1") (by decide)

end Bologna

namespace Bologna

/-- C5: A prototype is a function name, `(`, zero or more parameter
identifiers separated only by whitespace, and `)`:
`"extern sin(x)"` yields the prototype `sin(x)` with no body, and each
deviation from the shape yields its named failure. -/
theorem parse_prototype_shape :
    (ParseExtern 32 (initState "extern sin(x)")).1 = some ⟨"sin", ["x"]⟩ ∧
    (∀ (fuel : ℕ) (s : PState), (∀ n, s.curTok ≠ Tok.ident n) →
      ParsePrototype fuel s
        = LogErrorP "Expected function name in prototype" s) ∧
    (∀ (fuel : ℕ) (s : PState) (n : String), s.curTok = Tok.ident n →
      (getNextToken s).curTok ≠ Tok.ch '(' →
      ParsePrototype fuel s
        = LogErrorP "Expected '(' in prototype" (getNextToken s)) ∧
    (∀ (fuel : ℕ) (s s₂ : PState) (n : String) (args : List String),
      s.curTok = Tok.ident n →
      (getNextToken s).curTok = Tok.ch '(' →
      ProtoArgs fuel [] (getNextToken s) = (args, s₂) →
      s₂.curTok ≠ Tok.ch ')' →
      ParsePrototype fuel s = LogErrorP "Expected ')' in prototype" s₂) := by
  refine ⟨by decide, ?_, ?_, ?_⟩
  · intro fuel s h
    cases hc : s.curTok with
    | ident n => exact absurd hc (h n)
    | eof => simp [ParsePrototype, hc]
    | tok_def => simp [ParsePrototype, hc]
    | tok_ext => simp [ParsePrototype, hc]
    | number v => simp [ParsePrototype, hc]
    | ch c => simp [ParsePrototype, hc]
  · intro fuel s n hcur hpar
    simp only [ParsePrototype, hcur, if_pos hpar]
  · intro fuel s s₂ n args hcur hpar hargs hclose
    have hnn : ¬ (getNextToken s).curTok ≠ Tok.ch '(' := not_not_intro hpar
    simp only [ParsePrototype, hcur, if_neg hnn, hargs, if_pos hclose]

/-- Closed instances of `parse_prototype_shape`: `42(` has no function
name, `sin + x` has no `(`, and `sin(x` never closes with `)`. -/
theorem parse_prototype_shape_witness :
    ParsePrototype 32 (initState "42")
      = LogErrorP "Expected function name in prototype" (initState "42") ∧
    ParsePrototype 32 (initState "sin + x")
      = LogErrorP "Expected '(' in prototype" (getNextToken (initState "sin + x")) ∧
    ParsePrototype 32 (initState "sin(x")
      = LogErrorP "Expected ')' in prototype"
          ((ProtoArgs 32 [] (getNextToken (initState "sin(x"))).2) := by
  refine ⟨?_, ?_, ?_⟩
  · refine parse_prototype_shape.2.1 32 (initState "42") ?_
    intro n
    have hc : (initState "42").curTok = Tok.number 42 := by decide
    rw [hc]
    simp
  · exact parse_prototype_shape.2.2.1 32 (initState "sin + x") "sin"
      (by decide) (by decide)
  · exact parse_prototype_shape.2.2.2 32 (initState "sin(x")
      ((ProtoArgs 32 [] (getNextToken (initState "sin(x"))).2) "sin" ["x"]
      (by decide) (by decide) (by decide) (by decide)

/-- C6: An input consisting solely of whitespace and `#`-comments
lexes to exactly one `Eof` token and no other token: the first call to
the lexer already returns `Eof` (with the whole input consumed and
`LastChar = EOF`), and from that state every further call returns `Eof`
again. -/
theorem lexer_ws_comments_only_eof :
    (∀ text : String, wsOnly text.toList = true →
      gettok (some ' ') text.toList = (Tok.eof, none, [])) ∧
    (∀ inp : List Char, gettok none inp = (Tok.eof, none, inp)) := by
  constructor
  · intro text h
    simp only [wsOnly] at h
    have hs : lexScanOK false ' ' text.toList = true := by
      simp only [lexScanOK]
      rw [show isspace ' ' = true from by decide]
      simp only [Bool.true_and, Bool.or_eq_true]
      exact Or.inl h
    have h3 := skipToToken_lexScanOK text.toList false ' ' hs
    unfold gettok
    rw [h3]
  · intro inp
    have h0 : skipToToken false none inp = (none, inp) := by
      simp [skipToToken]
    unfold gettok
    rw [h0]

/-- Closed instance of `lexer_ws_comments_only_eof` on an input made of
blanks and two comments. -/
theorem lexer_ws_comments_only_eof_witness :
    gettok (some ' ') "  # one\n\t# two".toList = (Tok.eof, none, []) :=
  lexer_ws_comments_only_eof.1 "  # one\n\t# two" (by decide)

end Bologna

namespace Bologna

/-- C7: The lexers' end-of-input state is idempotent.  In
`bologna-cmake.cpp`, `gettok` returns `tok_eof` only together with
`LastChar = EOF` ("don't eat the EOF"), and from `LastChar = EOF` every
call returns `tok_eof` again without touching the input.  In
`Bologna.cpp`, `NextToken` at a cursor past the end returns `EOFToken`
and leaves the cursor unchanged (no out-of-bounds access). -/
theorem lexer_eof_idempotent :
    (∀ inp : List Char, gettok none inp = (Tok.eof, none, inp)) ∧
    (∀ (lc : Option Char) (inp inp₂ : List Char) (t : Tok) (lc₂ : Option Char),
      gettok lc inp = (t, lc₂, inp₂) → t = Tok.eof → lc₂ = none) ∧
    (∀ L : Bologna2.Lexer, L.text.length ≤ L.position →
      Bologna2.Lexer.NextToken L
        = (⟨Bologna2.SyntaxKind.EOFToken, L.position, "\x00", 0⟩, L)) := by
  refine ⟨?_, ?_, ?_⟩
  · intro inp
    have h0 : skipToToken false none inp = (none, inp) := by
      simp [skipToToken]
    unfold gettok
    rw [h0]
  · intro lc inp inp₂ t lc₂ hg ht
    subst ht
    unfold gettok at hg
    split at hg
    · simp_all
    · repeat (any_goals (split at hg))
      all_goals simp_all
  · intro L h
    simp [Bologna2.Lexer.NextToken, h]

/-- Closed instances of `lexer_eof_idempotent`: a drained
`bologna-cmake` lexer keeps returning `Eof` without reading, and the
`Bologna.cpp` lexer at position 5 of a 2-character text returns
`EOFToken` with the cursor unmoved. -/
theorem lexer_eof_idempotent_witness :
    gettok none "ab".toList = (Tok.eof, none, "ab".toList) ∧
    (none : Option Char) = none ∧
    Bologna2.Lexer.NextToken ⟨"ab".toList, 5⟩
      = (⟨Bologna2.SyntaxKind.EOFToken, 5, "\x00", 0⟩, ⟨"ab".toList, 5⟩) := by
  refine ⟨lexer_eof_idempotent.1 "ab".toList, ?_, ?_⟩
  · exact lexer_eof_idempotent.2.1 (some ' ') [] [] Tok.eof none (by decide) rfl
  · exact lexer_eof_idempotent.2.2 ⟨"ab".toList, 5⟩ (by decide)

/-- C8: The malformed inputs `"("` (unterminated parenthesized
expression), `"foo(1,"` (unterminated argument list) and `"def"`
(missing prototype) each produce a named failure: the driver receives
the null sentinel unchanged, exactly one diagnostic was emitted on the
way up, and the driver's recovery step has advanced one token (here to
`Eof`) without incident. -/
theorem malformed_inputs_named_failure :
    (HandleTopLevelExpression 32 (initState "(")).1 = none ∧
    (HandleTopLevelExpression 32 (initState "(")).2.log
      = ["unknown token when expecting an expression"] ∧
    (HandleTopLevelExpression 32 (initState "(")).2.curTok = Tok.eof ∧
    (HandleTopLevelExpression 32 (initState "foo(1,")).1 = none ∧
    (HandleTopLevelExpression 32 (initState "foo(1,")).2.log
      = ["unknown token when expecting an expression"] ∧
    (HandleTopLevelExpression 32 (initState "foo(1,")).2.curTok = Tok.eof ∧
    (HandleDefinition 32 (initState "def")).1 = none ∧
    (HandleDefinition 32 (initState "def")).2.log
      = ["Expected function name in prototype"] ∧
    (HandleDefinition 32 (initState "def")).2.curTok = Tok.eof := by
  refine ⟨?_, ?_, ?_, ?_, ?_, ?_, ?_, ?_, ?_⟩ <;> decide

/-- C9 as stated is false of the code: a parse failure reaches the
caller as the bare null sentinel.  Two failing parses that stop at
different tokens with different stderr diagnostics (`"("` fails inside
the parenthesized expression, `"(1"` fails at the missing `)`) return
the very same caller-visible value `none`, so that value determines
neither the message nor the position at which parsing stopped. -/
theorem parse_failure_result_carries_no_message :
    (runExpression 32 "(").1 = none ∧
    (runExpression 32 "(1").1 = none ∧
    (runExpression 32 "(").1 = (runExpression 32 "(1").1 ∧
    (runExpression 32 "(").2.log ≠ (runExpression 32 "(1").2.log := by
  refine ⟨?_, ?_, ?_, ?_⟩ <;> decide

/-- C9 amended: a parse failure is returned to the caller as the bare
sentinel `none`, carrying neither a message nor a token position; the
human-readable message is emitted on the stderr side channel only
(`LogError` prints and returns null), and no position is recorded. -/
theorem parse_failure_null_sentinel :
    (∀ (msg : String) (s : PState),
      LogError msg s = (none, { s with log := s.log ++ [msg] })) ∧
    (runExpression 32 "(").2.log
      = ["unknown token when expecting an expression"] ∧
    (runExpression 32 "(1").2.log = ["expected ')'"] :=
  ⟨fun _ _ => rfl, by decide, by decide⟩

/-- C10: Parentheses leave no trace in the AST: whenever the expression
parsed after `(` succeeds and the following token is `)`,
`ParseParenExpr` returns exactly that inner expression (consuming the
parentheses), with no grouping wrapper node; concretely, `"(a)"` and
`"a"` parse to the same AST. -/
theorem paren_expr_transparent :
    (∀ (fuel : ℕ) (s s₂ : PState) (v : ExprAST),
      ParseExpression fuel (getNextToken s) = (some v, s₂) →
      s₂.curTok = Tok.ch ')' →
      ParseParenExpr (fuel + 1) s = (some v, getNextToken s₂)) ∧
    (runExpression 32 "(a)").1 = (runExpression 32 "a").1 := by
  constructor
  · intro fuel s s₂ v hexp hcur
    simp only [ParseParenExpr, hexp, if_pos hcur]
  · decide

/-- Closed instance of `paren_expr_transparent` at `"(1)"`. -/
theorem paren_expr_transparent_witness :
    ParseParenExpr 31 (initState "(1)")
      = (some (ExprAST.numberExpr 1),
          getNextToken ((ParseExpression 30 (getNextToken (initState "(1)"))).2)) :=
  paren_expr_transparent.1 30 (initState "(1)")
    ((ParseExpression 30 (getNextToken (initState "(1)"))).2)
    (ExprAST.numberExpr 1) (by decide) (by decide)

end Bologna
